import Mathlib

/-!
Verification of the corrective-retrieval core of a retrieval-augmented
question-answering service (relevance grading, multi-query fan-out/merge,
action decision, resilient model invocation, input gate).

Chunks are the Python dicts used throughout the repository: every key the
core reads may be absent, so each field is an `Option`; the `get*`
accessors mirror the `dict.get(key, default)` calls of the source.
Relevance scores are modelled as rationals.
-/

/-- A retrieval chunk record (a Python dict with optional keys). -/
structure Chunk where
  chunk_id : Option String := none
  url : Option String := none
  content : Option String := none
  full_content : Option String := none
  source_query : Option String := none
  score : Option ℚ := none
  rerank_score : Option ℚ := none
deriving DecidableEq, Repr

namespace Chunk

/-- Mirrors `chunk.get("chunk_id", "")`. -/
def getChunkId (c : Chunk) : String := c.chunk_id.getD ""

/-- Mirrors `chunk.get("score", 0)`. -/
def getScore (c : Chunk) : ℚ := c.score.getD 0

/-- Mirrors `chunk.get("url", "unknown")`. -/
def getUrl (c : Chunk) : String := c.url.getD "unknown"

/-- The relevance score attached by the grader (`doc["rerank_score"]`),
read with default 0 like the other score reads. -/
def getRerank (c : Chunk) : ℚ := c.rerank_score.getD 0

end Chunk

/-- First pass of `_merge_chunks`: deduplicate by `chunk_id`, keeping the
first occurrence, and dropping chunks whose id is absent or empty
(`if chunk_id and chunk_id not in seen_ids`). -/
def dedupeByChunkId (seen : List String) : List Chunk → List Chunk
  | [] => []
  | c :: rest =>
    let cid := c.getChunkId
    if cid ≠ "" ∧ cid ∉ seen then c :: dedupeByChunkId (cid :: seen) rest
    else dedupeByChunkId seen rest

/-- Comparison used by `deduped.sort(key=lambda x: x.get("score", 0),
reverse=True)`: `a` may come before `b` when the score of `a` is at least that of `b`.
The Python sort is stable, and a stable sort under a total preorder has a
unique result, so any stable sorting algorithm with this relation is a
faithful embedding; we use `List.insertionSort`, which is stable. -/
def scoreGE (a b : Chunk) : Prop := b.getScore ≤ a.getScore

instance : DecidableRel scoreGE := fun a b =>
  inferInstanceAs (Decidable (b.getScore ≤ a.getScore))

instance : IsTotal Chunk scoreGE := ⟨fun a b => le_total b.getScore a.getScore⟩

instance : IsTrans Chunk scoreGE := ⟨fun _ _ _ h1 h2 => le_trans h2 h1⟩

/-- Third pass of `_merge_chunks`: walk the sorted pool, admitting a chunk
only while fewer than 3 chunks with the same `url` have been admitted. -/
def urlDiversityWalk (counts : String → Nat) : List Chunk → List Chunk
  | [] => []
  | c :: rest =>
    let url := c.getUrl
    if counts url < 3 then
      c :: urlDiversityWalk (Function.update counts url (counts url + 1)) rest
    else urlDiversityWalk counts rest

/-- The deduplicated pool sorted by score descending (stable). -/
def sortedPool (chunks : List Chunk) : List Chunk :=
  (dedupeByChunkId [] chunks).insertionSort scoreGE

/-- Embeds `MultiQueryRetriever._merge_chunks`: dedupe by `chunk_id`, sort by
`score` descending, cap at 3 chunks per URL, keep the first 6. -/
def merge_chunks (chunks : List Chunk) : List Chunk :=
  if chunks = [] then []
  else (urlDiversityWalk (fun _ => 0) (sortedPool chunks)).take 6

section MergeSanity

example : merge_chunks [] = [] := by decide

example :
    merge_chunks
      [{ chunk_id := some "a", score := some 1 },
       { chunk_id := some "b", score := some 9 }] =
      [{ chunk_id := some "b", score := some 9 },
       { chunk_id := some "a", score := some 1 }] := by decide

example :
    merge_chunks
      [{ chunk_id := some "a", score := some 1 },
       { chunk_id := some "a", score := some 2 },
       { chunk_id := some "", score := some 3 }] =
      [{ chunk_id := some "a", score := some 1 }] := by decide

end MergeSanity

/-! ### Multi-query retrieval (`MultiQueryRetriever.retrieve_multi`)

The single-query collaborator `self.retriever.retrieve(sub_q, ...)` is
external to this stage; it is modelled as a function that either returns
the `refined_chunks` list or fails (raises).  `retrieve_multi` itself
contains no `try`/`except`: an exception raised by a retrieval call
propagates out of the loop, which the `Except` monad models as error
propagation. -/

/-- The dictionary returned by `retrieve_multi`. -/
structure MultiRetrievalResult where
  merged_chunks : List Chunk
  per_query_results : List (String × List Chunk)
  total_queries : Nat
  total_retrieved : Nat
  after_merge : Nat
deriving DecidableEq, Repr

/-- Mirrors `chunk["source_query"] = sub_q`. -/
def tagSource (q : String) (c : Chunk) : Chunk := { c with source_query := some q }

/-- The retrieval loop of `retrieve_multi`: per sub-query call the
retriever, tag the returned chunks with the sub-query, and accumulate both
the per-query map and the flat `all_chunks` pool.  A retrieval failure
propagates. -/
def retrieveLoop (retrieve : String → Except String (List Chunk)) :
    List String → Except String (List (String × List Chunk) × List Chunk)
  | [] => .ok ([], [])
  | q :: rest => do
    let chunks ← retrieve q
    let tagged := chunks.map (tagSource q)
    let (per, all) ← retrieveLoop retrieve rest
    .ok ((q, tagged) :: per, tagged ++ all)

/-- Embeds `MultiQueryRetriever.retrieve_multi` over an abstract single-query
retriever. -/
def retrieve_multi (retrieve : String → Except String (List Chunk))
    (sub_queries : List String) : Except String MultiRetrievalResult := do
  let (per_query_results, all_chunks) ← retrieveLoop retrieve sub_queries
  let merged_chunks := merge_chunks all_chunks
  .ok { merged_chunks := merged_chunks
        per_query_results := per_query_results
        total_queries := sub_queries.length
        total_retrieved := all_chunks.length
        after_merge := merged_chunks.length }

/-! ### Action decision logic (`test.py`, `infer_action`) -/

/-- The three pipeline actions (`Action` clashes with a Mathlib name). -/
inductive PipelineAction where
  | KNOWLEDGE_REFINEMENT
  | WEB_SEARCH
  | HYBRID
deriving DecidableEq, Repr

/-- Embeds `ExceptionTester.infer_action`, as a function of the two bucket counts
it reads from `graded_stats` (`correct`, `ambiguous`, both defaulting
to 0, hence naturals). -/
def infer_action (correct ambiguous : Nat) : PipelineAction :=
  if correct ≥ 2 then .KNOWLEDGE_REFINEMENT
  else if correct = 0 ∧ ambiguous = 0 then .WEB_SEARCH
  else .HYBRID

/-! ### Relevance grading (`CrossEncoderReranker`) -/

/-- The three relevance buckets. -/
inductive Bucket where
  | correct
  | ambiguous
  | incorrect
deriving DecidableEq, Repr

/-- Threshold `self.high_threshold = 0.5` set in `CrossEncoderReranker.__init__`. -/
def high_threshold : ℚ := 1/2

/-- Threshold `self.low_threshold = 0.2` set in `CrossEncoderReranker.__init__`. -/
def low_threshold : ℚ := 1/5

/-- The classification of one score in `grade_documents`:
`score >= high_threshold` → correct, `elif score >= low_threshold` →
ambiguous, `else` → incorrect. -/
def classify (high low s : ℚ) : Bucket :=
  if s ≥ high then .correct
  else if s ≥ low then .ambiguous
  else .incorrect

/-- The grading buckets returned by `grade_documents`. -/
structure GradedBuckets where
  correct : List Chunk
  ambiguous : List Chunk
  incorrect : List Chunk
deriving DecidableEq, Repr

/-- The `for doc, score in zip(documents, scores)` loop of
`grade_documents`, appending each document to the bucket of its score. -/
def gradeLoop (high low : ℚ) : List (Chunk × ℚ) → GradedBuckets
  | [] => ⟨[], [], []⟩
  | (d, s) :: rest =>
    let g := gradeLoop high low rest
    match classify high low s with
    | .correct => { g with correct := d :: g.correct }
    | .ambiguous => { g with ambiguous := d :: g.ambiguous }
    | .incorrect => { g with incorrect := d :: g.incorrect }

/-- Embeds `CrossEncoderReranker.grade_documents`, parameterized by the scores
that `self.get_scores` returned for the documents (the Python `zip`
truncates to the shorter list, as `List.zip` does). -/
def grade_documents (high low : ℚ) (documents : List Chunk) (scores : List ℚ) :
    GradedBuckets :=
  if documents = [] then ⟨[], [], []⟩
  else gradeLoop high low (documents.zip scores)

/-! ### Scoring (`CrossEncoderReranker.get_scores`)

The external cross-encoder is a pairwise scorer returning a raw logit,
modelled as a real-valued function of the `(query, text)` pair; the
normalization `1 / (1 + np.exp(-x))` is the logistic function on ℝ. -/

/-- Mirrors `content = doc.get("full_content") or doc.get("content", "")`:
the Python `or` falls through on a missing *or empty* `full_content`. -/
def selectText (d : Chunk) : String :=
  match d.full_content with
  | some s => if s = "" then d.content.getD "" else s
  | none => d.content.getD ""

/-- Mirrors `content = content[:1000] if len(content) > 1000 else content`. -/
def truncate1000 (s : String) : String :=
  if s.length > 1000 then s.take 1000 else s

/-- The `(query, document_content)` pairs assembled by `get_scores`. -/
def scoredPairs (query : String) (documents : List Chunk) : List (String × String) :=
  documents.map (fun d => (query, truncate1000 (selectText d)))

/-- The logistic normalization `1 / (1 + np.exp(-x))`. -/
noncomputable def logistic (x : ℝ) : ℝ := 1 / (1 + Real.exp (-x))

/-- Embeds `CrossEncoderReranker.get_scores` over an abstract pairwise raw
scorer `predict`. -/
noncomputable def get_scores (predict : String × String → ℝ)
    (query : String) (documents : List Chunk) : List ℝ :=
  if documents = [] then []
  else (scoredPairs query documents).map (fun p => logistic (predict p))

/-! ### Resilient model invocation -/

/-- Modelled from the spec: `GroqLLM._call_with_failover` lives in
`src/generation/groq_llm.py`, which is not part of the sources here; only
`test.py` exercises it (via `llm.failure_counts`, `llm.model_pool`,
`llm.max_failures`).  Per the spec (§4.5): attempt models in pool order,
skipping any whose `failure_count >= max_failures`; a successful attempt
resets the counter of that model to 0 and returns its response immediately; a
failed attempt increments the counter of that model and moves on; if every
model is exhausted or ineligible the call returns null.  The external
language-model call is `attempt`, returning `none` on failure. -/
structure ModelPoolState where
  model_pool : List String
  failure_counts : String → Nat
  max_failures : Nat

/-- The pool walk of `_call_with_failover`, threading the failure
counters. -/
def failoverWalk (attempt : String → Option String) (max_failures : Nat) :
    List String → (String → Nat) → Option String × (String → Nat)
  | [], counts => (none, counts)
  | m :: rest, counts =>
    if counts m ≥ max_failures then failoverWalk attempt max_failures rest counts
    else
      match attempt m with
      | some resp => (some resp, fun k => if k = m then 0 else counts k)
      | none => failoverWalk attempt max_failures rest
          (fun k => if k = m then counts k + 1 else counts k)

/-- Modelled from the spec: `_call_with_failover(prompt)`, returning the
response (or null) and the updated pool state. -/
def call_with_failover (attempt : String → Option String)
    (st : ModelPoolState) : Option String × ModelPoolState :=
  let r := failoverWalk attempt st.max_failures st.model_pool st.failure_counts
  (r.1, { st with failure_counts := r.2 })

/-! ### Input gate -/

/-- Modelled from the spec: `SecurityManager` lives in
`src/security/security.py`, which is not part of the sources here; only
`test.py` constructs it (`SecurityManager(max_length=500, max_requests=10,
window_seconds=60)`).  Configuration per the spec (§4.1). -/
structure SecurityConfig where
  min_length : Nat
  max_length : Nat
  max_requests : Nat
  window_seconds : Nat
  signatures : List String

/-- Length of the longest run of one repeated character, tracked along the
character list. -/
def runScan : List Char → Char → Nat → Nat → Nat
  | [], _, cur, best => max cur best
  | c :: rest, prev, cur, best =>
    if c = prev then runScan rest prev (cur + 1) (max (cur + 1) best)
    else runScan rest c 1 best

/-- Longest run of a single repeated character in a string. -/
def longestRun (s : String) : Nat :=
  match s.data with
  | [] => 0
  | c :: rest => runScan rest c 1 1

/-- Case-insensitive substring match for an abuse signature. -/
def matchesSignature (query sig : String) : Prop :=
  sig.toLower.data <:+: query.toLower.data

instance (query sig : String) : Decidable (matchesSignature query sig) :=
  inferInstanceAs (Decidable (_ <:+: _))

/-- Modelled from the spec: `SecurityManager.validate_and_limit(user_id,
query_text)` (§4.1), with checks applied in order, short-circuiting on the
first failure: (1) length bounds, reasons "too short" / "too long";
(2) pattern-based abuse detection — configured injection signatures
(case-insensitive) and a single character repeated more than 10 times
(the spam regex noted in test.py: one character then 10 or more repeats); (3) per-user
sliding-window rate limit: purge timestamps older than `window_seconds`,
reject if the remaining count is at least `max_requests`, otherwise record
the new timestamp.  The verdict pairs `allowed` with the optional reason;
the per-user windows map is threaded explicitly, `now` is the current
timestamp. -/
def validate_and_limit (cfg : SecurityConfig) (now : Nat)
    (windows : String → List Nat) (user_id query : String) :
    (Bool × Option String) × (String → List Nat) :=
  if query.length < cfg.min_length then ((false, some "too short"), windows)
  else if query.length > cfg.max_length then ((false, some "too long"), windows)
  else if cfg.signatures.any (fun sig => decide (matchesSignature query sig)) then
    ((false, some "injection detected"), windows)
  else if longestRun query > 10 then ((false, some "spam pattern"), windows)
  else
    let purged := (windows user_id).filter (fun ts => now - ts < cfg.window_seconds)
    if purged.length ≥ cfg.max_requests then
      ((false, some "rate limit exceeded"), fun u => if u = user_id then purged else windows u)
    else
      ((true, none), fun u => if u = user_id then now :: purged else windows u)

/-- The configuration exercised by the claims: `min_length=3`,
`max_length=500`, `max_requests=10`, `window_seconds=60`, no injection
signatures configured. -/
def cfgBDU : SecurityConfig :=
  { min_length := 3, max_length := 500, max_requests := 10
    window_seconds := 60, signatures := [] }

/-- Runs `n` consecutive validated requests from one user, threading the
windows map. -/
def repeatRequests (cfg : SecurityConfig) (now : Nat) (user query : String) :
    Nat → (String → List Nat) → (String → List Nat)
  | 0, w => w
  | n + 1, w => repeatRequests cfg now user query n
      (validate_and_limit cfg now w user query).2

section GateSanity

example : (validate_and_limit cfgBDU 0 (fun _ => []) "u" "Hi").1 =
    (false, some "too short") := by decide

example :
    (validate_and_limit cfgBDU 0 (fun _ => []) "spam1"
      (String.mk (List.replicate 22 'a'))).1 = (false, some "spam pattern") := by decide

example :
    (validate_and_limit cfgBDU 0
      (repeatRequests cfgBDU 0 "u1" "hello" 10 (fun _ => [])) "u1" "hello").1 =
    (false, some "rate limit exceeded") := by decide

example :
    (validate_and_limit cfgBDU 0
      (repeatRequests cfgBDU 0 "u1" "hello" 10 (fun _ => [])) "u2" "hello").1 =
    (true, none) := by decide

end GateSanity

/-! ### Properties of the merge stage -/

/-- Every chunk surviving deduplication has a non-empty id not in `seen`. -/
theorem mem_dedupeByChunkId {seen : List String} {l : List Chunk} {c : Chunk}
    (h : c ∈ dedupeByChunkId seen l) :
    c.getChunkId ≠ "" ∧ c.getChunkId ∉ seen := by
  induction l generalizing seen with
  | nil => simp [dedupeByChunkId] at h
  | cons d rest ih =>
    simp only [dedupeByChunkId] at h
    split at h
    · rename_i hd
      rcases List.mem_cons.mp h with rfl | hmem
      · exact hd
      · have := ih hmem
        exact ⟨this.1, fun hs => this.2 (List.mem_cons_of_mem _ hs)⟩
    · exact ih h

/-- The ids of the deduplicated pool are pairwise distinct. -/
theorem dedupeByChunkId_ids_nodup (seen : List String) (l : List Chunk) :
    ((dedupeByChunkId seen l).map Chunk.getChunkId).Nodup := by
  induction l generalizing seen with
  | nil => simp [dedupeByChunkId]
  | cons d rest ih =>
    simp only [dedupeByChunkId]
    split
    · simp only [List.map_cons, List.nodup_cons]
      refine ⟨fun hmem => ?_, ih _⟩
      obtain ⟨c, hc, hid⟩ := List.mem_map.mp hmem
      exact (mem_dedupeByChunkId hc).2 (hid ▸ List.mem_cons_self _ _)
    · exact ih _

/-- Deduplication is the identity on a pool whose ids are already
non-empty, pairwise distinct, and disjoint from `seen`. -/
theorem dedupeByChunkId_eq_self {seen : List String} {l : List Chunk}
    (hids : ∀ c ∈ l, c.getChunkId ≠ "" ∧ c.getChunkId ∉ seen)
    (hnd : (l.map Chunk.getChunkId).Nodup) :
    dedupeByChunkId seen l = l := by
  induction l generalizing seen with
  | nil => rfl
  | cons d rest ih =>
    simp only [List.map_cons, List.nodup_cons] at hnd
    simp only [dedupeByChunkId]
    rw [if_pos (hids d (List.mem_cons_self _ _))]
    refine congrArg _ (ih (fun c hc => ?_) hnd.2)
    refine ⟨(hids c (List.mem_cons_of_mem _ hc)).1, ?_⟩
    intro hs
    rcases List.mem_cons.mp hs with heq | hs'
    · exact hnd.1 (heq ▸ List.mem_map_of_mem Chunk.getChunkId hc)
    · exact (hids c (List.mem_cons_of_mem _ hc)).2 hs'

/-- The diversity walk returns a sublist of its input. -/
theorem urlDiversityWalk_sublist (counts : String → Nat) (l : List Chunk) :
    List.Sublist (urlDiversityWalk counts l) l := by
  induction l generalizing counts with
  | nil => simp [urlDiversityWalk]
  | cons d rest ih =>
    simp only [urlDiversityWalk]
    split
    · exact (ih _).cons₂ d
    · exact (ih counts).cons d

/-- The diversity walk admits at most `3 - counts u` chunks of any url
`u`. -/
theorem urlDiversityWalk_countP (counts : String → Nat) (l : List Chunk) (u : String) :
    (urlDiversityWalk counts l).countP (fun c => c.getUrl == u) ≤ 3 - counts u := by
  induction l generalizing counts with
  | nil => simp [urlDiversityWalk]
  | cons d rest ih =>
    simp only [urlDiversityWalk]
    split
    · rename_i hlt
      have hrec := ih (Function.update counts d.getUrl (counts d.getUrl + 1))
      rw [Function.update_apply] at hrec
      by_cases hu : u = d.getUrl
      · subst hu
        rw [List.countP_cons_of_pos _ _ (by simp)]
        rw [if_pos rfl] at hrec
        omega
      · rw [List.countP_cons_of_neg _ _ (by simpa using fun he => hu he.symm)]
        rwa [if_neg hu] at hrec
    · exact ih counts

/-- The diversity walk is the identity when no url is over-represented. -/
theorem urlDiversityWalk_eq_self {counts : String → Nat} {l : List Chunk}
    (h : ∀ u, counts u + l.countP (fun c => c.getUrl == u) ≤ 3) :
    urlDiversityWalk counts l = l := by
  induction l generalizing counts with
  | nil => rfl
  | cons d rest ih =>
    have hd := h d.getUrl
    rw [List.countP_cons_of_pos _ _ (by simp)] at hd
    simp only [urlDiversityWalk]
    rw [if_pos (by omega)]
    refine congrArg _ (ih fun u => ?_)
    rw [Function.update_apply]
    by_cases hu : u = d.getUrl
    · subst hu
      rw [if_pos rfl]
      omega
    · have hu' := h u
      rw [List.countP_cons_of_neg _ _ (by simpa using fun he => hu he.symm)] at hu'
      rwa [if_neg hu]

/-- Unconditionally, `_merge_chunks` equals the dedupe–sort–diversify–cap
pipeline (the early return for an empty input coincides with it). -/
theorem merge_chunks_eq (chunks : List Chunk) :
    merge_chunks chunks = (urlDiversityWalk (fun _ => 0) (sortedPool chunks)).take 6 := by
  unfold merge_chunks
  split
  · subst ‹chunks = []›
    rfl
  · rfl

/-- The merged output is an order-preserving selection from the sorted
deduplicated pool. -/
theorem merge_chunks_sublist_sortedPool (chunks : List Chunk) :
    List.Sublist (merge_chunks chunks) (sortedPool chunks) := by
  rw [merge_chunks_eq]
  exact (List.take_sublist _ _).trans (urlDiversityWalk_sublist _ _)

/-- The sorted pool is a permutation of the deduplicated pool. -/
theorem sortedPool_perm (chunks : List Chunk) :
    (sortedPool chunks).Perm (dedupeByChunkId [] chunks) :=
  List.perm_insertionSort scoreGE (dedupeByChunkId [] chunks)

/-- The sorted pool is sorted by score descending. -/
theorem sortedPool_sorted (chunks : List Chunk) :
    (sortedPool chunks).Pairwise scoreGE :=
  List.sorted_insertionSort scoreGE (dedupeByChunkId [] chunks)

/-- At most 6 chunks come out of `_merge_chunks`. -/
theorem merge_chunks_length_le (chunks : List Chunk) :
    (merge_chunks chunks).length ≤ 6 := by
  rw [merge_chunks_eq, List.length_take]
  exact min_le_left _ _

/-- The ids of the merged chunks are pairwise distinct. -/
theorem merge_chunks_ids_nodup (chunks : List Chunk) :
    ((merge_chunks chunks).map Chunk.getChunkId).Nodup := by
  have hpool : ((sortedPool chunks).map Chunk.getChunkId).Nodup :=
    ((sortedPool_perm chunks).map Chunk.getChunkId).nodup_iff.mpr
      (dedupeByChunkId_ids_nodup [] chunks)
  exact ((merge_chunks_sublist_sortedPool chunks).map Chunk.getChunkId).nodup hpool

/-- No url is represented more than 3 times in the merged output. -/
theorem merge_chunks_url_cap (chunks : List Chunk) (u : String) :
    (merge_chunks chunks).countP (fun c => c.getUrl == u) ≤ 3 := by
  rw [merge_chunks_eq]
  calc ((urlDiversityWalk (fun _ => 0) (sortedPool chunks)).take 6).countP
        (fun c => c.getUrl == u)
      ≤ (urlDiversityWalk (fun _ => 0) (sortedPool chunks)).countP
        (fun c => c.getUrl == u) := (List.take_sublist _ _).countP_le _
    _ ≤ 3 - (fun _ => 0) u := urlDiversityWalk_countP _ _ u
    _ ≤ 3 := Nat.sub_le _ _

/-- Every merged chunk has a non-empty `chunk_id`. -/
theorem merge_chunks_mem_id_ne (chunks : List Chunk) (c : Chunk)
    (hc : c ∈ merge_chunks chunks) : c.getChunkId ≠ "" := by
  have hmem : c ∈ dedupeByChunkId [] chunks :=
    (sortedPool_perm chunks).mem_iff.mp
      ((merge_chunks_sublist_sortedPool chunks).mem hc)
  exact (mem_dedupeByChunkId hmem).1

/-- The merged output is sorted by score descending. -/
theorem merge_chunks_sorted (chunks : List Chunk) :
    (merge_chunks chunks).Pairwise scoreGE :=
  List.Pairwise.sublist (merge_chunks_sublist_sortedPool chunks)
    (sortedPool_sorted chunks)

/-! ### Properties of the fan-out stage -/

@[simp] theorem except_error_bind {α β : Type} (e : String)
    (f : α → Except String β) : (Except.error e >>= f) = Except.error e := rfl

@[simp] theorem except_ok_bind {α β : Type} (a : α)
    (f : α → Except String β) : (Except.ok a >>= f) = f a := rfl

@[simp] theorem except_isOk_ok {α : Type} (a : α) :
    (Except.ok a : Except String α).isOk = true := rfl

@[simp] theorem except_isOk_error {α : Type} (e : String) :
    (Except.error e : Except String α).isOk = false := rfl

/-- The retrieval loop succeeds exactly when every per-sub-query retrieval
call succeeds. -/
theorem retrieveLoop_isOk_iff (retrieve : String → Except String (List Chunk))
    (qs : List String) :
    (retrieveLoop retrieve qs).isOk = true ↔ ∀ q ∈ qs, (retrieve q).isOk = true := by
  induction qs with
  | nil => simp [retrieveLoop]
  | cons q rest ih =>
    rw [retrieveLoop]
    cases hq : retrieve q with
    | error e => simp [hq]
    | ok chunks =>
      cases hl : retrieveLoop retrieve rest with
      | error e =>
        rw [hl] at ih
        simp only [except_ok_bind, except_error_bind, except_isOk_error,
          except_isOk_ok, List.forall_mem_cons, hq, false_iff, true_and] at ih ⊢
        exact ih
      | ok pa =>
        rw [hl] at ih
        simp [hq, ← ih]

/-- The stage `retrieve_multi` succeeds exactly when its retrieval loop does. -/
theorem retrieve_multi_isOk_iff (retrieve : String → Except String (List Chunk))
    (qs : List String) :
    (retrieve_multi retrieve qs).isOk = true ↔ ∀ q ∈ qs, (retrieve q).isOk = true := by
  rw [← retrieveLoop_isOk_iff retrieve qs]
  unfold retrieve_multi
  cases hl : retrieveLoop retrieve qs with
  | error e => simp
  | ok pa => simp

/-- On success, the `merged_chunks` of `retrieve_multi` is `_merge_chunks`
of the accumulated pool. -/
theorem retrieve_multi_ok_shape (retrieve : String → Except String (List Chunk))
    (qs : List String) (res : MultiRetrievalResult)
    (h : retrieve_multi retrieve qs = .ok res) :
    ∃ all : List Chunk, res.merged_chunks = merge_chunks all := by
  unfold retrieve_multi at h
  cases hl : retrieveLoop retrieve qs with
  | error e =>
    rw [hl] at h
    simp at h
  | ok pa =>
    rw [hl] at h
    obtain ⟨per, all⟩ := pa
    simp only [except_ok_bind, Except.ok.injEq] at h
    exact ⟨all, by rw [← h]⟩

/-! ### Claims about the merge stage -/

/-- C1: For every input list of chunks, the merged result returned by
`_merge_chunks` (and hence the `merged_chunks` of `retrieve_multi`)
contains at most 6 chunks, no two of its chunks share a `chunk_id`, and no
url value occurs in it more than 3 times. -/
theorem merge_chunks_invariants :
    ∀ chunks : List Chunk,
      ((merge_chunks chunks).length ≤ 6 ∧
        ((merge_chunks chunks).map Chunk.getChunkId).Nodup ∧
        ∀ u : String, (merge_chunks chunks).countP (fun c => c.getUrl == u) ≤ 3) ∧
      ∀ (retrieve : String → Except String (List Chunk)) (qs : List String)
        (res : MultiRetrievalResult),
        retrieve_multi retrieve qs = .ok res →
        res.merged_chunks.length ≤ 6 ∧
        (res.merged_chunks.map Chunk.getChunkId).Nodup ∧
        ∀ u : String, res.merged_chunks.countP (fun c => c.getUrl == u) ≤ 3 := by
  intro chunks
  refine ⟨⟨merge_chunks_length_le chunks, merge_chunks_ids_nodup chunks,
    merge_chunks_url_cap chunks⟩, ?_⟩
  intro retrieve qs res h
  obtain ⟨all, hall⟩ := retrieve_multi_ok_shape retrieve qs res h
  rw [hall]
  exact ⟨merge_chunks_length_le all, merge_chunks_ids_nodup all,
    merge_chunks_url_cap all⟩

theorem merge_chunks_invariants_witness :
    ((merge_chunks
        [{ chunk_id := some "a", score := some 1 },
         { chunk_id := some "b", score := some 9 }]).length ≤ 6 ∧
      ((merge_chunks
        [{ chunk_id := some "a", score := some 1 },
         { chunk_id := some "b", score := some 9 }]).map Chunk.getChunkId).Nodup ∧
      ∀ u : String,
        (merge_chunks
          [{ chunk_id := some "a", score := some 1 },
           { chunk_id := some "b", score := some 9 }]).countP
          (fun c => c.getUrl == u) ≤ 3) ∧
    (([] : List Chunk).length ≤ 6 ∧
      (([] : List Chunk).map Chunk.getChunkId).Nodup ∧
      ∀ u : String, ([] : List Chunk).countP (fun c => c.getUrl == u) ≤ 3) :=
  ⟨(merge_chunks_invariants
      [{ chunk_id := some "a", score := some 1 },
       { chunk_id := some "b", score := some 9 }]).1,
    (merge_chunks_invariants
      [{ chunk_id := some "a", score := some 1 },
       { chunk_id := some "b", score := some 9 }]).2
      (fun _ => .ok []) []
      { merged_chunks := [], per_query_results := [], total_queries := 0
        total_retrieved := 0, after_merge := 0 } rfl⟩

/-- C9: `_merge_chunks` is idempotent on its own outputs: applying it to
the list it returned (already deduplicated, score-sorted,
diversity-capped, and truncated) returns that list unchanged. -/
theorem merge_chunks_idempotent (chunks : List Chunk) :
    merge_chunks (merge_chunks chunks) = merge_chunks chunks := by
  set out := merge_chunks chunks with hout
  have hdedupe : dedupeByChunkId [] out = out :=
    dedupeByChunkId_eq_self
      (fun c hc => ⟨merge_chunks_mem_id_ne chunks c hc, List.not_mem_nil _⟩)
      (merge_chunks_ids_nodup chunks)
  have hsorted : List.insertionSort scoreGE out = out :=
    List.Sorted.insertionSort_eq (merge_chunks_sorted chunks)
  have hwalk : urlDiversityWalk (fun _ => 0) out = out :=
    urlDiversityWalk_eq_self (fun u => by
      simpa using merge_chunks_url_cap chunks u)
  have htake : out.take 6 = out :=
    List.take_of_length_le (merge_chunks_length_le chunks)
  rw [merge_chunks_eq out, sortedPool, hdedupe, hsorted, hwalk, htake]

/-- C10: Any chunk whose `chunk_id` key is absent or equal to the empty
string is excluded from the output of `_merge_chunks` regardless of its
score or uniqueness; equivalently, every chunk in the merged result has a
non-empty `chunk_id`. -/
theorem merge_chunks_excludes_idless :
    ∀ (chunks : List Chunk) (c : Chunk),
      (c.getChunkId = "" → c ∉ merge_chunks chunks) ∧
      (c ∈ merge_chunks chunks → c.getChunkId ≠ "") := by
  intro chunks c
  exact ⟨fun hid hc => merge_chunks_mem_id_ne chunks c hc hid,
    merge_chunks_mem_id_ne chunks c⟩

theorem merge_chunks_excludes_idless_witness :
    ({ chunk_id := none, url := some "u", score := some 5 } : Chunk) ∉
      merge_chunks
        [{ chunk_id := none, url := some "u", score := some 5 },
         { chunk_id := some "x", score := some 1 }] :=
  (merge_chunks_excludes_idless
      [{ chunk_id := none, url := some "u", score := some 5 },
       { chunk_id := some "x", score := some 1 }]
      { chunk_id := none, url := some "u", score := some 5 }).1 (by decide)

/-- C5 (counterexample): `_merge_chunks` sorts by the `score` key, not by
the `rerank_score` the grader attached: on a pool whose `score` order
opposes its `rerank_score` order, the merged output is not ordered by the
relevance score attached by the grader. -/
theorem merge_chunks_not_ordered_by_rerank :
    (merge_chunks
      [{ chunk_id := some "a", score := some 1, rerank_score := some 9 },
       { chunk_id := some "b", score := some 9, rerank_score := some 1 }]).map
      Chunk.getRerank = [1, 9] ∧
    ¬ (merge_chunks
      [{ chunk_id := some "a", score := some 1, rerank_score := some 9 },
       { chunk_id := some "b", score := some 9, rerank_score := some 1 }]).Pairwise
      (fun a b => b.getRerank ≤ a.getRerank) := by
  constructor
  · decide
  · decide

/-- C5 (amended): in `_merge_chunks` the deduplicated pool is sorted by
the value under the `score` key (default 0) descending before the
diversity walk, with ties broken by order of first appearance (the sort is
stable), so the merged output is ordered by the `score` value, highest
first. -/
theorem merge_chunks_ordered_by_score :
    ∀ (chunks : List Chunk) (a b : Chunk),
      (merge_chunks chunks).Pairwise scoreGE ∧
      List.Sublist (merge_chunks chunks) (sortedPool chunks) ∧
      (a.getScore = b.getScore →
        List.Sublist [a, b] (dedupeByChunkId [] chunks) →
        List.Sublist [a, b] (sortedPool chunks)) := by
  intro chunks a b
  refine ⟨merge_chunks_sorted chunks, merge_chunks_sublist_sortedPool chunks,
    fun hs hab => ?_⟩
  refine List.sublist_insertionSort ?_ hab
  exact List.pairwise_pair.mpr (le_of_eq hs.symm)

theorem merge_chunks_ordered_by_score_witness :
    (merge_chunks
      [{ chunk_id := some "a", score := some 5 },
       { chunk_id := some "b", score := some 5 }]).Pairwise scoreGE ∧
    List.Sublist
      (merge_chunks
        [{ chunk_id := some "a", score := some 5 },
         { chunk_id := some "b", score := some 5 }])
      (sortedPool
        [{ chunk_id := some "a", score := some 5 },
         { chunk_id := some "b", score := some 5 }]) ∧
    List.Sublist
      [{ chunk_id := some "a", score := some 5 },
       { chunk_id := some "b", score := some 5 }]
      (sortedPool
        [{ chunk_id := some "a", score := some 5 },
         { chunk_id := some "b", score := some 5 }]) := by
  have h := merge_chunks_ordered_by_score
    [{ chunk_id := some "a", score := some 5 },
     { chunk_id := some "b", score := some 5 }]
    { chunk_id := some "a", score := some 5 }
    { chunk_id := some "b", score := some 5 }
  exact ⟨h.1, h.2.1, h.2.2 (by decide) (by decide)⟩

/-- C2 (counterexample): with two sub-queries of which only the first
fails, `retrieve_multi` fails as a whole instead of recording zero chunks
for the failing sub-query and continuing. -/
theorem retrieve_multi_failure_counterexample :
    retrieve_multi
      (fun q => if q = "q1" then .error "timeout"
                else .ok [{ chunk_id := some "a" }]) ["q1", "q2"] =
      .error "timeout" ∧
    (fun q => if q = "q1" then .error "timeout"
              else .ok [{ chunk_id := some "a" }] :
      String → Except String (List Chunk)) "q2" =
      .ok [{ chunk_id := some "a" }] := by
  constructor
  · rfl
  · rfl

/-- C2 (amended): `retrieve_multi` performs no per-sub-query failure
recovery: it succeeds exactly when the retrieval call of every sub-query
succeeds, and a failing retrieval call of any sub-query fails the
stage as a whole. -/
theorem retrieve_multi_no_subquery_recovery :
    ∀ (retrieve : String → Except String (List Chunk)) (qs : List String),
      ((retrieve_multi retrieve qs).isOk = true ↔
        ∀ q ∈ qs, (retrieve q).isOk = true) ∧
      ∀ (q e : String), q ∈ qs → retrieve q = .error e →
        (retrieve_multi retrieve qs).isOk = false := by
  intro retrieve qs
  refine ⟨retrieve_multi_isOk_iff retrieve qs, fun q e hq herr => ?_⟩
  rw [Bool.eq_false_iff]
  intro hok
  have := (retrieve_multi_isOk_iff retrieve qs).mp hok q hq
  rw [herr] at this
  exact Bool.noConfusion this

theorem retrieve_multi_no_subquery_recovery_witness :
    ((retrieve_multi (fun q => if q = "q1" then .error "boom" else .ok [])
        ["q1", "q2"]).isOk = true ↔
      ∀ q ∈ ["q1", "q2"],
        ((fun q => if q = "q1" then .error "boom" else .ok [] :
          String → Except String (List Chunk)) q).isOk = true) ∧
    (retrieve_multi (fun q => if q = "q1" then .error "boom" else .ok [])
      ["q1", "q2"]).isOk = false := by
  have h := retrieve_multi_no_subquery_recovery
    (fun q => if q = "q1" then .error "boom" else .ok []) ["q1", "q2"]
  exact ⟨h.1, h.2 "q1" "boom" (by decide) rfl⟩

/-! ### Claims about the action decision logic -/

/-- C3: The action decision is a pure function of the pair
`(correct, ambiguous)`: `correct >= 2` yields KNOWLEDGE_REFINEMENT;
otherwise `correct == 0 and ambiguous == 0` yields WEB_SEARCH; otherwise
HYBRID.  In particular `(2,0) → KNOWLEDGE_REFINEMENT`,
`(0,0) → WEB_SEARCH`, `(1,1) → HYBRID`, `(0,3) → HYBRID`, and identical
inputs always yield the same action. -/
theorem infer_action_spec :
    (∀ correct ambiguous : Nat,
      (2 ≤ correct → infer_action correct ambiguous = .KNOWLEDGE_REFINEMENT) ∧
      (correct < 2 → correct = 0 → ambiguous = 0 →
        infer_action correct ambiguous = .WEB_SEARCH) ∧
      (correct < 2 → ¬(correct = 0 ∧ ambiguous = 0) →
        infer_action correct ambiguous = .HYBRID) ∧
      ∀ c a : Nat, correct = c → ambiguous = a →
        infer_action correct ambiguous = infer_action c a) ∧
    infer_action 2 0 = .KNOWLEDGE_REFINEMENT ∧
    infer_action 0 0 = .WEB_SEARCH ∧
    infer_action 1 1 = .HYBRID ∧
    infer_action 0 3 = .HYBRID := by
  refine ⟨?_, by decide, by decide, by decide, by decide⟩
  intro correct ambiguous
  refine ⟨fun h2 => ?_, fun hlt h0 ha => ?_, fun hlt hne => ?_,
    fun c a hc ha => ?_⟩
  · unfold infer_action
    rw [if_pos h2]
  · subst h0; subst ha; decide
  · unfold infer_action
    rw [if_neg (by omega), if_neg hne]
  · subst hc; subst ha; rfl

theorem infer_action_spec_witness :
    infer_action 5 0 = .KNOWLEDGE_REFINEMENT ∧
    infer_action 0 0 = .WEB_SEARCH ∧
    infer_action 1 1 = .HYBRID ∧
    infer_action 3 2 = infer_action 3 2 :=
  ⟨(infer_action_spec.1 5 0).1 (by decide),
   (infer_action_spec.1 0 0).2.1 (by decide) rfl rfl,
   (infer_action_spec.1 1 1).2.2.1 (by decide) (by decide),
   (infer_action_spec.1 3 2).2.2.2 3 2 rfl rfl⟩

/-! ### Claims about relevance grading -/

/-- Trust rank of a bucket (incorrect < ambiguous < correct). -/
def bucketRank : Bucket → Nat
  | .incorrect => 0
  | .ambiguous => 1
  | .correct => 2

theorem classify_eq_correct (s : ℚ) :
    classify high_threshold low_threshold s = .correct ↔ 1/2 ≤ s := by
  unfold classify high_threshold low_threshold
  split_ifs with h1 h2
  · simpa using h1
  · simpa using h1
  · simpa using h1

theorem classify_eq_ambiguous (s : ℚ) :
    classify high_threshold low_threshold s = .ambiguous ↔ 1/5 ≤ s ∧ s < 1/2 := by
  unfold classify high_threshold low_threshold
  split_ifs with h1 h2
  · constructor
    · intro h
      exact absurd h (by simp)
    · rintro ⟨-, hlt⟩
      linarith
  · constructor
    · intro _
      exact ⟨h2, lt_of_not_le h1⟩
    · intro _
      rfl
  · constructor
    · intro h
      exact absurd h (by simp)
    · rintro ⟨hge, -⟩
      exact absurd hge h2
  
theorem classify_eq_incorrect (s : ℚ) :
    classify high_threshold low_threshold s = .incorrect ↔ s < 1/5 := by
  unfold classify high_threshold low_threshold
  split_ifs with h1 h2
  · constructor
    · intro h
      exact absurd h (by simp)
    · intro hlt
      linarith
  · constructor
    · intro h
      exact absurd h (by simp)
    · intro hlt
      exact absurd h2 (by simpa using hlt.trans_le (by norm_num))
  · constructor
    · intro _
      exact lt_of_not_le h2
    · intro _
      rfl

/-- The trust rank of a classification, as two threshold comparisons. -/
theorem bucketRank_classify (high low s : ℚ) :
    bucketRank (classify high low s) =
      if high ≤ s then 2 else if low ≤ s then 1 else 0 := by
  unfold classify bucketRank
  split_ifs <;> rfl

/-- The grading loop partitions the zipped pairs into the three buckets,
preserving order. -/
theorem gradeLoop_eq_filterMap (high low : ℚ) (l : List (Chunk × ℚ)) :
    gradeLoop high low l =
      { correct := l.filterMap
          (fun p => if classify high low p.2 = .correct then some p.1 else none),
        ambiguous := l.filterMap
          (fun p => if classify high low p.2 = .ambiguous then some p.1 else none),
        incorrect := l.filterMap
          (fun p => if classify high low p.2 = .incorrect then some p.1 else none) } := by
  induction l with
  | nil => rfl
  | cons p rest ih =>
    obtain ⟨d, s⟩ := p
    simp only [gradeLoop, ih, List.filterMap_cons]
    cases hcl : classify high low s <;> simp [hcl]

/-- C4: `grade_documents` with `high_threshold = 0.5` and
`low_threshold = 0.2` partitions every input document list into exactly
one of three buckets by its score: score in `[0, 0.2)` → incorrect,
`[0.2, 0.5)` → ambiguous, `[0.5, 1]` → correct; classification is monotone
in the score — increasing the score of a document never moves it to a
lower-trust bucket. -/
theorem grade_documents_partition_monotone :
    (∀ (documents : List Chunk) (scores : List ℚ),
      grade_documents high_threshold low_threshold documents scores =
        { correct := (documents.zip scores).filterMap
            (fun p => if (1:ℚ)/2 ≤ p.2 then some p.1 else none),
          ambiguous := (documents.zip scores).filterMap
            (fun p => if (1:ℚ)/5 ≤ p.2 ∧ p.2 < 1/2 then some p.1 else none),
          incorrect := (documents.zip scores).filterMap
            (fun p => if p.2 < (1:ℚ)/5 then some p.1 else none) }) ∧
    (∀ s : ℚ, 0 ≤ s → s ≤ 1 →
      ((classify high_threshold low_threshold s = .incorrect ↔ s < 1/5) ∧
       (classify high_threshold low_threshold s = .ambiguous ↔ 1/5 ≤ s ∧ s < 1/2) ∧
       (classify high_threshold low_threshold s = .correct ↔ 1/2 ≤ s))) ∧
    ∀ s t : ℚ, s ≤ t →
      bucketRank (classify high_threshold low_threshold s) ≤
        bucketRank (classify high_threshold low_threshold t) := by
  refine ⟨?_, fun s _ _ => ⟨classify_eq_incorrect s, classify_eq_ambiguous s,
    classify_eq_correct s⟩, fun s t hst => ?_⟩
  · intro documents scores
    unfold grade_documents
    split
    · subst ‹documents = []›
      simp
    · rw [gradeLoop_eq_filterMap]
      rw [GradedBuckets.mk.injEq]
      refine ⟨?_, ?_, ?_⟩ <;> refine List.filterMap_congr (fun p _ => ?_)
      · exact if_congr (classify_eq_correct p.2) rfl rfl
      · exact if_congr (classify_eq_ambiguous p.2) rfl rfl
      · exact if_congr (classify_eq_incorrect p.2) rfl rfl
  · rw [bucketRank_classify, bucketRank_classify]
    unfold high_threshold low_threshold
    by_cases h1 : (1:ℚ)/2 ≤ s
    · rw [if_pos h1, if_pos (le_trans h1 hst)]
    · rw [if_neg h1]
      by_cases h2 : (1:ℚ)/5 ≤ s
      · rw [if_pos h2]
        by_cases h3 : (1:ℚ)/2 ≤ t
        · rw [if_pos h3]
          decide
        · rw [if_neg h3, if_pos (le_trans h2 hst)]
      · rw [if_neg h2]
        exact Nat.zero_le _

theorem grade_documents_partition_monotone_witness :
    (grade_documents high_threshold low_threshold
        [{ chunk_id := some "a" }] [1] =
      { correct := (([{ chunk_id := some "a" }] : List Chunk).zip [(1:ℚ)]).filterMap
          (fun p => if (1:ℚ)/2 ≤ p.2 then some p.1 else none),
        ambiguous := (([{ chunk_id := some "a" }] : List Chunk).zip [(1:ℚ)]).filterMap
          (fun p => if (1:ℚ)/5 ≤ p.2 ∧ p.2 < 1/2 then some p.1 else none),
        incorrect := (([{ chunk_id := some "a" }] : List Chunk).zip [(1:ℚ)]).filterMap
          (fun p => if p.2 < (1:ℚ)/5 then some p.1 else none) }) ∧
    (classify high_threshold low_threshold 0 = .incorrect ↔ (0:ℚ) < 1/5) ∧
    (classify high_threshold low_threshold 1 = .correct ↔ (1:ℚ)/2 ≤ 1) ∧
    bucketRank (classify high_threshold low_threshold 0) ≤
      bucketRank (classify high_threshold low_threshold 1) :=
  ⟨grade_documents_partition_monotone.1 [{ chunk_id := some "a" }] [1],
   (grade_documents_partition_monotone.2.1 0 le_rfl (by norm_num)).1,
   (grade_documents_partition_monotone.2.1 1 (by norm_num) le_rfl).2.2,
   grade_documents_partition_monotone.2.2 0 1 (by norm_num)⟩

/-! ### Claims about scoring -/

/-- The text-selection rule as the spec words it: `full_content` whenever
the key is present, else `content`; to compare with the `selectText` of
the source. -/
def specSelectText (d : Chunk) : String :=
  match d.full_content with
  | some s => s
  | none => d.content.getD ""

/-- C6 (counterexample): a present-but-empty `full_content` is not the
text scored by `get_scores`: the Python `or` falls through to `content`,
so the scored pair differs from the selection rule the spec states. -/
theorem get_scores_text_selection_counterexample :
    selectText { full_content := some "", content := some "abc" } = "abc" ∧
    specSelectText { full_content := some "", content := some "abc" } = "" ∧
    scoredPairs "q" [{ full_content := some "", content := some "abc" }] ≠
      [("q", specSelectText { full_content := some "", content := some "abc" })] := by
  refine ⟨rfl, rfl, ?_⟩
  decide

/-- C6 (amended): for every document given to `get_scores`, the text
scored against the query is `full_content` when present and non-empty,
else `content`, truncated to its first 1000 characters; each returned
score is the logistic `1 / (1 + e^(-x))` of the raw scorer output `x` for
that pair, so every returned score lies in `(0, 1)`, and the output list
has the same length as the input document list. -/
theorem get_scores_spec :
    ∀ (predict : String × String → ℝ) (query : String) (documents : List Chunk),
      (get_scores predict query documents).length = documents.length ∧
      get_scores predict query documents =
        documents.map
          (fun d => logistic (predict (query, truncate1000 (selectText d)))) ∧
      (∀ r ∈ get_scores predict query documents, 0 < r ∧ r < 1) ∧
      (∀ (d : Chunk) (s : String), d.full_content = some s → s ≠ "" →
        selectText d = s) ∧
      (∀ d : Chunk, d.full_content = none → selectText d = d.content.getD "") ∧
      (∀ d : Chunk, d.full_content = some "" → selectText d = d.content.getD "") ∧
      (∀ s : String, s.length ≤ 1000 → truncate1000 s = s) ∧
      (∀ s : String, 1000 < s.length → truncate1000 s = s.take 1000) := by
  intro predict query documents
  have hmap : get_scores predict query documents =
      documents.map
        (fun d => logistic (predict (query, truncate1000 (selectText d)))) := by
    unfold get_scores scoredPairs
    split
    · rename_i hnil
      subst hnil
      rfl
    · rw [List.map_map]
      rfl
  refine ⟨by rw [hmap, List.length_map], hmap, ?_, ?_, ?_, ?_, ?_, ?_⟩
  · intro r hr
    rw [hmap] at hr
    obtain ⟨d, -, rfl⟩ := List.mem_map.mp hr
    unfold logistic
    have hexp := Real.exp_pos (-(predict (query, truncate1000 (selectText d))))
    constructor
    · exact div_pos one_pos (by linarith)
    · rw [div_lt_one (by linarith)]
      linarith
  · intro d s hfc hne
    simp [selectText, hfc, hne]
  · intro d hfc
    simp [selectText, hfc]
  · intro d hfc
    simp [selectText, hfc]
  · intro s hle
    unfold truncate1000
    rw [if_neg (by omega)]
  · intro s hlt
    unfold truncate1000
    rw [if_pos hlt]

theorem get_scores_spec_witness :
    (get_scores (fun _ => 0) "q" [{ content := some "hello" }]).length = 1 ∧
    (∀ r ∈ get_scores (fun _ => 0) "q" [{ content := some "hello" }],
      0 < r ∧ r < 1) ∧
    selectText { full_content := some "full", content := some "short" } = "full" ∧
    selectText { content := some "short" } = "short" ∧
    selectText { full_content := some "", content := some "short" } = "short" ∧
    truncate1000 "ab" = "ab" :=
  have h := get_scores_spec (fun _ => 0) "q" [{ content := some "hello" }]
  ⟨h.1, h.2.2.1,
   h.2.2.2.1 { full_content := some "full", content := some "short" } "full"
     rfl (by decide),
   h.2.2.2.2.1 { content := some "short" } rfl,
   h.2.2.2.2.2.1 { full_content := some "", content := some "short" } rfl,
   h.2.2.2.2.2.2.1 "ab" (by decide)⟩

/-! ### Claims about resilient model invocation -/

/-- C7: for `call_with_failover` over an ordered pool `[A, B]` with
`max_failures = 1` and zeroed counters: if the attempt on A fails and the
attempt on B succeeds, the call returns the response of B, the
`failure_count` of A becomes 1 and that of B stays 0; a call made when the
`failure_count` of every pooled model has reached `max_failures` attempts no model (its result
does not depend on the attempt function at all) and returns null with the
state unchanged. -/
theorem call_with_failover_spec :
    (∀ (A B resp : String) (attempt : String → Option String),
      A ≠ B → attempt A = none → attempt B = some resp →
      (call_with_failover attempt
        { model_pool := [A, B], failure_counts := fun _ => 0,
          max_failures := 1 }).1 = some resp ∧
      (call_with_failover attempt
        { model_pool := [A, B], failure_counts := fun _ => 0,
          max_failures := 1 }).2.failure_counts A = 1 ∧
      (call_with_failover attempt
        { model_pool := [A, B], failure_counts := fun _ => 0,
          max_failures := 1 }).2.failure_counts B = 0) ∧
    ∀ (attempt : String → Option String) (st : ModelPoolState),
      (∀ m ∈ st.model_pool, st.max_failures ≤ st.failure_counts m) →
      call_with_failover attempt st = (none, st) := by
  constructor
  · intro A B resp attempt hAB hA hB
    have hBA : B ≠ A := fun h => hAB h.symm
    refine ⟨?_, ?_, ?_⟩ <;>
      simp [call_with_failover, failoverWalk, hA, hB, hAB, hBA]
  · intro attempt st hall
    have hwalk : ∀ (pool : List String) (counts : String → Nat),
        (∀ m ∈ pool, st.max_failures ≤ counts m) →
        failoverWalk attempt st.max_failures pool counts = (none, counts) := by
      intro pool
      induction pool with
      | nil => intro counts _; rfl
      | cons m rest ih =>
        intro counts h
        rw [failoverWalk, if_pos (h m (List.mem_cons_self _ _))]
        exact ih counts fun m' hm' => h m' (List.mem_cons_of_mem _ hm')
    unfold call_with_failover
    rw [hwalk st.model_pool st.failure_counts hall]

theorem call_with_failover_spec_witness :
    ((call_with_failover (fun m => if m = "B" then some "ok" else none)
        { model_pool := ["A", "B"], failure_counts := fun _ => 0,
          max_failures := 1 }).1 = some "ok" ∧
      (call_with_failover (fun m => if m = "B" then some "ok" else none)
        { model_pool := ["A", "B"], failure_counts := fun _ => 0,
          max_failures := 1 }).2.failure_counts "A" = 1 ∧
      (call_with_failover (fun m => if m = "B" then some "ok" else none)
        { model_pool := ["A", "B"], failure_counts := fun _ => 0,
          max_failures := 1 }).2.failure_counts "B" = 0) ∧
    call_with_failover (fun m => if m = "B" then some "ok" else none)
      { model_pool := ["A", "B"], failure_counts := fun _ => 1,
        max_failures := 1 } =
      (none, { model_pool := ["A", "B"], failure_counts := fun _ => 1,
               max_failures := 1 }) :=
  ⟨call_with_failover_spec.1 "A" "B" "ok"
      (fun m => if m = "B" then some "ok" else none) (by decide) rfl rfl,
   call_with_failover_spec.2 (fun m => if m = "B" then some "ok" else none)
      { model_pool := ["A", "B"], failure_counts := fun _ => 1,
        max_failures := 1 } (by intro m _; exact le_refl 1)⟩

/-! ### Claims about the input gate -/

/-- C8: `validate_and_limit` with `min_length = 3`, `max_length = 500`,
`max_requests = 10`, `window_seconds = 60` rejects every query longer than
500 characters with reason "too long" and every query shorter than 3
characters with reason "too short"; a query of 22 identical repeated
characters is rejected as spam; for a single user the 11th request within
one 60-second window is rejected while the same request from a different
user in the same window is allowed. -/
theorem validate_and_limit_spec :
    (∀ (now : Nat) (w : String → List Nat) (user q : String),
      500 < q.length →
      validate_and_limit cfgBDU now w user q = ((false, some "too long"), w)) ∧
    (∀ (now : Nat) (w : String → List Nat) (user q : String),
      q.length < 3 →
      validate_and_limit cfgBDU now w user q = ((false, some "too short"), w)) ∧
    (∀ (now : Nat) (w : String → List Nat) (user : String),
      validate_and_limit cfgBDU now w user
        (String.mk (List.replicate 22 'a')) = ((false, some "spam pattern"), w)) ∧
    (validate_and_limit cfgBDU 0
        (repeatRequests cfgBDU 0 "u1" "hello" 10 (fun _ => [])) "u1" "hello").1 =
      (false, some "rate limit exceeded") ∧
    (validate_and_limit cfgBDU 0
        (repeatRequests cfgBDU 0 "u1" "hello" 10 (fun _ => [])) "u2" "hello").1 =
      (true, none) := by
  refine ⟨?_, ?_, ?_, by decide, by decide⟩
  · intro now w user q hlong
    unfold validate_and_limit cfgBDU
    rw [if_neg (by simp; omega), if_pos (by simpa using hlong)]
  · intro now w user q hshort
    unfold validate_and_limit cfgBDU
    rw [if_pos (by simpa using hshort)]
  · intro now w user
    unfold validate_and_limit cfgBDU
    rw [if_neg (by decide), if_neg (by decide), if_neg (by decide),
      if_pos (by decide)]

set_option maxRecDepth 4096 in
theorem validate_and_limit_spec_witness :
    validate_and_limit cfgBDU 0 (fun _ => []) "userA"
      (String.mk (List.replicate 501 'a')) =
      ((false, some "too long"), fun _ => []) ∧
    validate_and_limit cfgBDU 0 (fun _ => []) "userB" "Hi" =
      ((false, some "too short"), fun _ => []) ∧
    validate_and_limit cfgBDU 5 (fun _ => []) "userC"
      (String.mk (List.replicate 22 'a')) =
      ((false, some "spam pattern"), fun _ => []) :=
  ⟨validate_and_limit_spec.1 0 (fun _ => []) "userA"
      (String.mk (List.replicate 501 'a')) (by decide),
   validate_and_limit_spec.2.1 0 (fun _ => []) "userB" "Hi" (by decide),
   validate_and_limit_spec.2.2.1 5 (fun _ => []) "userC"⟩
